import Mathlib

/- Batteries marks the `Rat` arithmetic operations `@[irreducible]`, which
blocks `decide`-style evaluation of the concrete `ℚ` computations below;
they are plain computable definitions, so restore their reducibility. -/
set_option allowUnsafeReducibility true in
attribute [semireducible] Rat.mul Rat.add Rat.sub Rat.inv Rat.div

deriving instance DecidableEq for Except

/-!
Shallow embedding of the ORCA dense-matrix engine (`Mat.h`, `Vec.h`,
`Except.h`, `ORCAMath.h`) and proofs about its element access, views,
allocators, sticky-compute cache and Gaussian-elimination kernels.

Conventions of the embedding:
* the scalar type `T` is a parameter `α` with `Field α` and `DecidableEq α`
  (the source requires `+ - * / ==` and construction from numeric literals);
  concrete evaluations use `ℚ` as an exact scalar;
* `index_t` (a signed `long long`) is embedded as `Int` where signedness is
  observable (public index arguments), and as `Nat` for loop counters that
  the source only ever drives upward from `0`;
* a C++ `throw` of an ORCA exception becomes `Except.error` with the
  corresponding `Err` value; a read or write of memory outside the
  `malloc`ed buffer is not an exception in C++ (it is undefined behaviour),
  and is embedded as the distinguished errors `Err.undefinedRead` /
  `Err.undefinedWrite`;
* loops whose C++ termination argument is implicit (the pivot-search
  `while` loop of `rref`/`det`) take a fuel parameter; exhaustion gives the
  artificial `Err.outOfFuel`, which never occurs in any run examined here.
-/

namespace ORCA

/-- Exception kinds of `Except.h` / error codes of `ORCAMath.h`, plus the
two undefined-behaviour markers and the fuel marker described above. -/
inductive Err : Type where
  | outOfBounds
  | badDimensions
  | emptyElement
  | unknownFill
  | undefinedRead
  | undefinedWrite
  | outOfFuel
  deriving DecidableEq, Repr

/-- Sticky-compute mask bit for the diagonal (`ORCAMath.h`: `1 << 0`). -/
def ORCA_STICKY_COMPUTE_DIAG_MASK : Nat := 1

/-- Sticky-compute mask bit for the determinant (`ORCAMath.h`: `1 << 1`). -/
def ORCA_STICKY_COMPUTE_DET_MASK : Nat := 2

/-- Sticky-compute mask bit for the inverse (`ORCAMath.h`: `1 << 2`). -/
def ORCA_STICKY_COMPUTE_INV_MASK : Nat := 4

/-- The storage core of `Mat<T>`: dimensions `_n_rows`/`_n_cols` and the
row-major element buffer `_mat`.  The sticky-compute fields live in `MatS`
below so that the elimination kernels, which operate on clones whose cache
is irrelevant, can be stated on the plain core. -/
structure Mat (α : Type) : Type where
  rows : Nat
  cols : Nat
  buf : List α
  deriving DecidableEq, Repr

/-- A matrix is well formed when its buffer has exactly `rows * cols`
elements, as guaranteed by every allocation path of the source. -/
def Mat.wf {α : Type} (m : Mat α) : Prop := m.buf.length = m.rows * m.cols

/-- The bounds test of `Mat<T>::_address` (Mat.h lines 69-76), verbatim:
note `>` where `[0, rows)` indexing would need `>=`, so `row == rows` and
`col == cols` pass the check. -/
def Mat.addrBad {α : Type} (m : Mat α) (row col : Int) : Prop :=
  row > (m.rows : Int) ∨ row < 0 ∨ col > (m.cols : Int) ∨ col < 0

instance {α : Type} (m : Mat α) (row col : Int) : Decidable (m.addrBad row col) := by
  unfold Mat.addrBad; infer_instance

/-- `Mat<T>::at(row, col)`: `_address` bounds check, then the dereference
`_mat[col + row * _n_cols]`.  A dereference outside the buffer is the
undefined-behaviour marker. -/
def Mat.atE {α : Type} (m : Mat α) (row col : Int) : Except Err α :=
  if m.addrBad row col then .error .outOfBounds
  else
    match m.buf.get? (col + row * m.cols).toNat with
    | some v => .ok v
    | none => .error .undefinedRead

/-- `Mat<T>::set(row, col, elem)` restricted to the storage core: bounds
check as `at`, then the in-place store.  (The sticky-mask clearing that
`set` also performs is modelled in `MatS.set`.) -/
def Mat.setE {α : Type} (m : Mat α) (row col : Int) (v : α) : Except Err (Mat α) :=
  if m.addrBad row col then .error .outOfBounds
  else if (col + row * m.cols).toNat < m.buf.length then
    .ok { m with buf := m.buf.set (col + row * m.cols).toNat v }
  else .error .undefinedWrite

/-- `Mat<T>::_allocate(rows, cols)` (Mat.h lines 40-60): negative
dimensions are `BadDimensionsError`, zero dimensions `EmptyElementError`;
on success the dimensions are recorded (the fresh buffer itself holds
uninitialized memory, so only the dimensions are returned). -/
def Mat.allocate (rows cols : Int) : Except Err (Nat × Nat) :=
  if rows < 0 ∨ cols < 0 then .error .badDimensions
  else if rows = 0 ∨ cols = 0 then .error .emptyElement
  else .ok (rows.toNat, cols.toNat)

/-- `Vec<T>::_allocate(_n_elems)` (Vec.h lines 48-58): only a negative
length is rejected, and with `EmptyElementError`; the result records
`(_n_elems, _n_rows, _n_cols) = (n, 1, n)`. -/
def Vec.allocate (nElems : Int) : Except Err (Nat × Nat × Nat) :=
  if nElems < 0 then .error .emptyElement
  else .ok (nElems.toNat, 1, nElems.toNat)

/-- `ColVec<T>::_allocate(_n_elems)` (Vec.h lines 295-305): same check,
with `(_n_rows, _n_cols) = (n, 1)`. -/
def ColVec.allocate (nElems : Int) : Except Err (Nat × Nat × Nat) :=
  if nElems < 0 then .error .emptyElement
  else .ok (nElems.toNat, nElems.toNat, 1)

/-- The transpose view `Mat<T>::MatTr` (Mat.h lines 88-121): its
constructor stores the parent and sets `_n_cols = parent.rows()`,
`_n_rows = parent.cols()`. -/
structure MatTr (α : Type) : Type where
  matrix : Mat α
  rows : Nat
  cols : Nat
  deriving DecidableEq, Repr

/-- `Mat<T>::t()`: builds the transpose view. -/
def Mat.t {α : Type} (m : Mat α) : MatTr α := ⟨m, m.cols, m.rows⟩

/-- `MatTr::at(row, col)`: forwards to the parent with the indices
swapped, with no bounds check of its own. -/
def MatTr.atE {α : Type} (tr : MatTr α) (row col : Int) : Except Err α :=
  tr.matrix.atE col row

/-- The rectangular sub-range view `Mat<T>::SubMat` (Mat.h lines 126-194):
the constructor's recorded state. -/
structure SubMat (α : Type) : Type where
  matrix : Mat α
  r1 : Int
  r2 : Int
  c1 : Int
  c2 : Int
  rows : Int
  cols : Int
  deriving DecidableEq, Repr

/-- `Mat<T>::range(row1, row2, col1, col2)` via the `SubMat` constructor:
`BadDimensionsError` when `r2 < r1 ∨ c2 < c1`, otherwise a view with
`_n_rows = r2 - r1 + 1`, `_n_cols = c2 - c1 + 1`. -/
def Mat.range {α : Type} (m : Mat α) (r1 r2 c1 c2 : Int) : Except Err (SubMat α) :=
  if r2 < r1 ∨ c2 < c1 then .error .badDimensions
  else .ok ⟨m, r1, r2, c1, c2, r2 - r1 + 1, c2 - c1 + 1⟩

/-- `SubMat::at(row, col)` (Mat.h lines 184-192): the "additional bounds
check to prevent going into parent matrix", again with `>` rather than
`>=`, then the forwarded access `parent.at(row + _r1, col + _c1)`. -/
def SubMat.atE {α : Type} (s : SubMat α) (row col : Int) : Except Err α :=
  if row < 0 ∨ row > s.rows ∨ col < 0 ∨ col > s.cols then .error .outOfBounds
  else s.matrix.atE (row + s.r1) (col + s.c1)

/-- `Mat<T>::setRow(row, _vec)` (Mat.h lines 639-649) with the snapshot
vector given as a list: `BadDimensionsError` when the vector length is not
`_n_cols`, otherwise element-wise `set(row, i, _vec.at(i))`. -/
def Mat.setRowL {α : Type} (m : Mat α) (row : Nat) (vec : List α) : Except Err (Mat α) :=
  if vec.length ≠ m.cols then .error .badDimensions
  else ((List.range m.cols).zip vec).foldlM (fun acc p => acc.setE row p.1 p.2) m

/-- `Mat<T>::rowSwap(r1, r2)` (Mat.h lines 838-851): `getRow(r1)` bounds
check, snapshot of row `r1` into a temporary vector, overwrite of row `r1`
with row `r2` element by element (reading the live matrix), then
`setRow(r2, snapshot)`. -/
def Mat.rowSwap {α : Type} (m : Mat α) (r1 r2 : Nat) : Except Err (Mat α) := do
  if (r1 : Int) > (m.rows : Int) then .error .outOfBounds
  else do
    let snap ← (List.range m.cols).mapM (fun i => m.atE r1 i)
    let m2 ← (List.range m.cols).foldlM (fun acc i => do
      let v ← acc.atE r2 i
      acc.setE r1 i v) m
    m2.setRowL r2 snap

/-- `Mat<T>::rowMutliply(r1, t1)` (Mat.h lines 858-863; the source spells
the name this way): `set(r1, i, t1 * at(r1, i))` for each column. -/
def Mat.rowMutliply {α : Type} [Mul α] (m : Mat α) (r1 : Nat) (t1 : α) :
    Except Err (Mat α) :=
  (List.range m.cols).foldlM (fun acc i => do
    let v ← acc.atE r1 i
    acc.setE r1 i (t1 * v)) m

/-- `Mat<T>::rowAdd(r1, r2, multiply)` (Mat.h lines 884-889):
`set(r1, i, at(r1, i) + multiply * at(r2, i))` for each column. -/
def Mat.rowAdd {α : Type} [Mul α] [Add α] (m : Mat α) (r1 r2 : Nat) (multiply : α) :
    Except Err (Mat α) :=
  (List.range m.cols).foldlM (fun acc i => do
    let a ← acc.atE r1 i
    let b ← acc.atE r2 i
    acc.setE r1 i (a + multiply * b)) m

/-- `Mat<T>::diag()` (Mat.h lines 729-753) as the list of its elements:
the leading `min(rows, cols)` entries `at(i, i)`. -/
def Mat.diagL {α : Type} (m : Mat α) : Except Err (List α) :=
  (List.range (min m.rows m.cols)).mapM (fun i => m.atE i i)

/-- Modelled from the spec: `Vec<T>::prod()` is not among the source files
(the `Vec` version they contain predates it); §4.4 uses it only as
`product(diagonal of fully reduced matrix)`, so it is the product of the
elements. -/
def Vec.prod {α : Type} [Mul α] [One α] (l : List α) : α :=
  l.foldl (fun a b => a * b) 1

/-- The pivot-search `while` loop shared by `det`, `rref()` and
`rref(_m2)`: starting from `i = r` at column `lead`, scan downward for a
non-zero entry; when the rows are exhausted, restart at row `r` in the
next column; when `_n_cols == lead` after that advance, report `none`
(the kernels' "return current state" exit).  The entry read `at(i, lead)`
is the loop condition, performed before any index test. -/
def pivotSearch {α : Type} [Zero α] [DecidableEq α] :
    Nat → Mat α → Nat → Nat → Nat → Except Err (Option (Nat × Nat))
  | 0, _, _, _, _ => .error .outOfFuel
  | fuel + 1, m, r, i, lead => do
    let v ← m.atE i lead
    if v = 0 then
      if m.rows = i + 1 then
        if m.cols = lead + 1 then .ok none
        else pivotSearch fuel m r r (lead + 1)
      else pivotSearch fuel m r (i + 1) lead
    else .ok (some (i, lead))

/-- The elimination inner loop of `det` (Mat.h lines 930-934): for
`i = r, …, rows-1`, `i ≠ r`, `rowAdd(i, r, -at(i, lead))`, reading the
multiplier from the live matrix. -/
def detElim {α : Type} [Field α] (m : Mat α) (r lead : Nat) : Except Err (Mat α) :=
  ((List.range m.rows).drop r).foldlM (fun acc i =>
    if i ≠ r then do
      let c ← acc.atE i lead
      acc.rowAdd i r (-c)
    else pure acc) m

/-- The main `for (r = …)` loop of `Mat<T>::det` (Mat.h lines 904-943) on
the working clone, threading `multiplier`.  The `Bool` in the result tells
which exit was taken: `false` for the in-loop `return 0` statements (which
skip the sticky-cache store), `true` for the fall-through exit that
returns `multiplier * diag().prod()`. -/
def detLoop {α : Type} [Field α] [DecidableEq α] :
    Nat → Mat α → Nat → Nat → α → Except Err (α × Bool)
  | 0, _, _, _, _ => .error .outOfFuel
  | fuel + 1, m, r, lead, multiplier =>
    if r < m.rows then
      if m.cols < lead then .ok (0, false)
      else do
        match ← pivotSearch (fuel + 1) m r r lead with
        | none => .ok (0, false)
        | some (i, lead2) => do
          let m ← m.rowSwap i r
          let multiplier := multiplier * (if (i - r) % 2 = 0 then 1 else -1)
          let pv ← m.atE r lead2
          let (m, multiplier) ←
            if pv ≠ 0 then do
              let pv2 ← m.atE r lead2
              let multiplier := multiplier * pv2
              let pv3 ← m.atE r lead2
              let m ← m.rowMutliply r (1 / pv3)
              pure (m, multiplier)
            else pure (m, multiplier)
          let m ← detElim m r lead2
          detLoop fuel m (r + 1) (lead2 + 1) multiplier
    else do
      let d ← m.diagL
      .ok (multiplier * Vec.prod d, true)

/-- `Mat<T>::det` on the working clone (`Mat<T> matClone = this` is a deep
copy through the `Mat(Mat<T1>*)` constructor, so the pure value `m` plays
the clone): `lead = 0`, `multiplier = 1.0`, rows from `r = 0`. -/
def detKernel {α : Type} [Field α] [DecidableEq α] (fuel : Nat) (m : Mat α) :
    Except Err (α × Bool) :=
  detLoop fuel m 0 0 1

/-- Modelled from the spec (claim C2 wording, §4.4): the same determinant
loop except that every row swap with `i ≠ r` multiplies the running
multiplier by `-1` — where the source multiplies by
`(((i - r) % 2) == 0) ? 1 : -1`. -/
def detClaimLoop {α : Type} [Field α] [DecidableEq α] :
    Nat → Mat α → Nat → Nat → α → Except Err (α × Bool)
  | 0, _, _, _, _ => .error .outOfFuel
  | fuel + 1, m, r, lead, multiplier =>
    if r < m.rows then
      if m.cols < lead then .ok (0, false)
      else do
        match ← pivotSearch (fuel + 1) m r r lead with
        | none => .ok (0, false)
        | some (i, lead2) => do
          let m ← m.rowSwap i r
          let multiplier := multiplier * (if i ≠ r then -1 else 1)
          let pv ← m.atE r lead2
          let (m, multiplier) ←
            if pv ≠ 0 then do
              let pv2 ← m.atE r lead2
              let multiplier := multiplier * pv2
              let pv3 ← m.atE r lead2
              let m ← m.rowMutliply r (1 / pv3)
              pure (m, multiplier)
            else pure (m, multiplier)
          let m ← detElim m r lead2
          detClaimLoop fuel m (r + 1) (lead2 + 1) multiplier
    else do
      let d ← m.diagL
      .ok (multiplier * Vec.prod d, true)

/-- Wrapper for `detClaimLoop` with the same initial state as `detKernel`. -/
def detClaimKernel {α : Type} [Field α] [DecidableEq α] (fuel : Nat) (m : Mat α) :
    Except Err (α × Bool) :=
  detClaimLoop fuel m 0 0 1

/-- The elimination inner loop of `rref()` (Mat.h lines 975-979): for
every `i = 0, …, rows-1`, `i ≠ r`, `rowAdd(i, r, -at(i, lead))`. -/
def rrefElim {α : Type} [Field α] (m : Mat α) (r lead : Nat) : Except Err (Mat α) :=
  (List.range m.rows).foldlM (fun acc i =>
    if i ≠ r then do
      let c ← acc.atE i lead
      acc.rowAdd i r (-c)
    else pure acc) m

/-- The main loop of `Mat<T>::rref()` (Mat.h lines 950-984) on the working
clone `_m1Clone`: terminate returning the clone when `_n_cols < lead`
(note `<`, not `<=`) or when the pivot search exhausts the columns;
otherwise unconditional `rowSwap(i, r)`, pivot normalization when the
pivot is non-zero, elimination in every other row, and `++lead`. -/
def rrefLoop {α : Type} [Field α] [DecidableEq α] :
    Nat → Mat α → Nat → Nat → Except Err (Mat α)
  | 0, _, _, _ => .error .outOfFuel
  | fuel + 1, m, r, lead =>
    if r < m.rows then
      if m.cols < lead then .ok m
      else do
        match ← pivotSearch (fuel + 1) m r r lead with
        | none => .ok m
        | some (i, lead2) => do
          let m ← m.rowSwap i r
          let pv ← m.atE r lead2
          let m ←
            if pv ≠ 0 then do
              let pv2 ← m.atE r lead2
              m.rowMutliply r (1 / pv2)
            else pure m
          let m ← rrefElim m r lead2
          rrefLoop fuel m (r + 1) (lead2 + 1)
    else .ok m

/-- `Mat<T>::rref()`: the loop from `r = 0`, `lead = 0` on the deep clone
(`Mat<T> _m1Clone = this` through the `Mat(Mat<T1>*)` constructor). -/
def rrefKernel {α : Type} [Field α] [DecidableEq α] (fuel : Nat) (m : Mat α) :
    Except Err (Mat α) :=
  rrefLoop fuel m 0 0

/-- The main loop of the augmented `Mat<T>::rref(Mat<T> _m2)` (Mat.h lines
992-1034), threading `(_m1Clone, _m2Clone)` as values.  `rowSwap` is
guarded by `i != r` here; the pivot branch multiplies the `_m2Clone` row
twice — once by the reciprocal of the pre-normalization pivot and, after
`_m1Clone` is normalized, once more by the reciprocal of the re-read pivot
(then equal to `1`); the elimination loop updates `_m2Clone` before
`_m1Clone`, each time re-reading `_m1Clone.at(i, lead)`.  The C++ function
returns only `_m2Clone`; both final values are produced here so that the
returned matrix and the state left in the shared `_m2` buffer (see the
heap model below) can each be read off. -/
def rref2Loop {α : Type} [Field α] [DecidableEq α] :
    Nat → Mat α → Mat α → Nat → Nat → Except Err (Mat α × Mat α)
  | 0, _, _, _, _ => .error .outOfFuel
  | fuel + 1, m1, m2, r, lead =>
    if r < m1.rows then
      if m1.cols < lead then .ok (m1, m2)
      else do
        match ← pivotSearch (fuel + 1) m1 r r lead with
        | none => .ok (m1, m2)
        | some (i, lead2) => do
          let (m1, m2) ←
            if i ≠ r then do
              let m1 ← m1.rowSwap i r
              let m2 ← m2.rowSwap i r
              pure (m1, m2)
            else pure (m1, m2)
          let pv ← m1.atE r lead2
          let (m1, m2) ←
            if pv ≠ 0 then do
              let a ← m1.atE r lead2
              let m2 ← m2.rowMutliply r (1 / a)
              let b ← m1.atE r lead2
              let m1 ← m1.rowMutliply r (1 / b)
              let c ← m1.atE r lead2
              let m2 ← m2.rowMutliply r (1 / c)
              pure (m1, m2)
            else pure (m1, m2)
          let (m1, m2) ← (List.range m1.rows).foldlM
            (fun (p : Mat α × Mat α) i =>
              if i ≠ r then do
                let c1 ← p.1.atE i lead2
                let m2 ← p.2.rowAdd i r (-c1)
                let c2 ← p.1.atE i lead2
                let m1 ← p.1.rowAdd i r (-c2)
                pure (m1, m2)
              else pure p) (m1, m2)
          rref2Loop fuel m1 m2 (r + 1) (lead2 + 1)
    else .ok (m1, m2)

/-- The value returned by `m1.rref(m2)`: the final `_m2Clone`. -/
def rref2Kernel {α : Type} [Field α] [DecidableEq α] (fuel : Nat) (m1 m2 : Mat α) :
    Except Err (Mat α) := do
  let (_, m2f) ← rref2Loop fuel m1 m2 0 0
  pure m2f

/-- A `Mat<T>` instance together with its sticky-compute state: the
`_stickyComputeMask` bitmask and the cached determinant `_det`.  (The
cached inverse `_inv` follows the same discipline and is not needed for
the claims below.) -/
structure MatS (α : Type) : Type where
  mat : Mat α
  stickyComputeMask : Nat
  detCache : α
  deriving DecidableEq, Repr

/-- `Mat<T>::set(row, col, elem)` (Mat.h lines 624-631) including the
sticky-compute behaviour: on success the element is stored and the whole
mask is reset to `0`. -/
def MatS.set {α : Type} (s : MatS α) (row col : Int) (v : α) : Except Err (MatS α) :=
  match s.mat.setE row col v with
  | .error e => .error e
  | .ok m => .ok { s with mat := m, stickyComputeMask := 0 }

/-- `Mat<T>::det()` (Mat.h lines 893-945): if the determinant bit of the
mask is set, return `_det` with no recomputation (before any dimension
check); otherwise `BadDimensionsError` unless square; otherwise run the
elimination loop on the deep clone.  Only the fall-through exit (the
`true` flag of `detKernel`) sets the determinant bit and stores `_det`;
the in-loop `return 0` exits leave the sticky state untouched. -/
def MatS.det {α : Type} [Field α] [DecidableEq α] (fuel : Nat) (s : MatS α) :
    Except Err (α × MatS α) :=
  if s.stickyComputeMask &&& ORCA_STICKY_COMPUTE_DET_MASK ≠ 0 then
    .ok (s.detCache, s)
  else if s.mat.rows ≠ s.mat.cols then .error .badDimensions
  else
    match detKernel fuel s.mat with
    | .error e => .error e
    | .ok (v, stored) =>
      if stored then
        .ok (v, { s with
          stickyComputeMask := s.stickyComputeMask ||| ORCA_STICKY_COMPUTE_DET_MASK,
          detCache := v })
      else .ok (v, s)

/-- The inner (column) loop of `operator == (Mat<T1>, Mat<T2>)` (Mat.h
lines 1081-1095) at row `i`: `return false` at the first differing pair. -/
def matEqCols {α : Type} [DecidableEq α] (m1 m2 : Mat α) (i : Nat) :
    List Nat → Except Err Bool
  | [] => .ok true
  | j :: js =>
    match m1.atE i j with
    | .error e => .error e
    | .ok a =>
      match m2.atE i j with
      | .error e => .error e
      | .ok b => if a ≠ b then .ok false else matEqCols m1 m2 i js

/-- The outer (row) loop of `operator ==`. -/
def matEqRows {α : Type} [DecidableEq α] (m1 m2 : Mat α) :
    List Nat → Except Err Bool
  | [] => .ok true
  | i :: is =>
    match matEqCols m1 m2 i (List.range m1.cols) with
    | .error e => .error e
    | .ok r => if r then matEqRows m1 m2 is else .ok false

/-- `operator == (Mat<T1> m1, Mat<T2> m2)`: `false` on any shape
mismatch, otherwise the element-wise scan over `m1`'s index ranges.  (The
source compares matrices of two scalar types `T1`/`T2` through their
heterogeneous `!=`; the embedding instantiates both at one scalar type.) -/
def matEq {α : Type} [DecidableEq α] (m1 m2 : Mat α) : Except Err Bool :=
  if m1.rows ≠ m2.rows ∨ m1.cols ≠ m2.cols then .ok false
  else matEqRows m1 m2 (List.range m1.rows)

/-!
A small heap model, used to observe which buffer the augmented
`rref(Mat<T> _m2)` writes through.  `Mat<T>` declares constructors but no
copy constructor, so C++ generates the implicit one, which copies the
`_mat` pointer; a `MatRef` is therefore the by-value content of a `Mat`
object — dimensions plus the identity (heap index) of its buffer — and
copying a `MatRef` models the implicit copy constructor exactly.
-/

/-- The by-value content of a `Mat<T>` object: `_n_rows`, `_n_cols` and
the identity of the `malloc`ed buffer `_mat` points to. -/
structure MatRef : Type where
  rows : Nat
  cols : Nat
  buf : Nat
  deriving DecidableEq, Repr

/-- The store of `malloc`ed buffers, indexed by `MatRef.buf`. -/
abbrev Heap (α : Type) : Type := List (List α)

/-- `Mat<T>::at` through a reference: the `_address` bounds test of the
referenced object, then the dereference into its buffer. -/
def readH {α : Type} (h : Heap α) (m : MatRef) (row col : Int) : Except Err α :=
  if row > (m.rows : Int) ∨ row < 0 ∨ col > (m.cols : Int) ∨ col < 0 then
    .error .outOfBounds
  else
    match h.get? m.buf with
    | none => .error .undefinedRead
    | some b =>
      match b.get? (col + row * m.cols).toNat with
      | some v => .ok v
      | none => .error .undefinedRead

/-- `Mat<T>::set` (element store only) through a reference. -/
def writeH {α : Type} (h : Heap α) (m : MatRef) (row col : Int) (v : α) :
    Except Err (Heap α) :=
  if row > (m.rows : Int) ∨ row < 0 ∨ col > (m.cols : Int) ∨ col < 0 then
    .error .outOfBounds
  else
    match h.get? m.buf with
    | none => .error .undefinedWrite
    | some b =>
      if (col + row * m.cols).toNat < b.length then
        .ok (h.set m.buf (b.set (col + row * m.cols).toNat v))
      else .error .undefinedWrite

/-- `Mat<T>::setRow` through a reference, snapshot vector as a list. -/
def setRowLH {α : Type} (h : Heap α) (m : MatRef) (row : Nat) (vec : List α) :
    Except Err (Heap α) :=
  if vec.length ≠ m.cols then .error .badDimensions
  else ((List.range m.cols).zip vec).foldlM (fun acc p => writeH acc m row p.1 p.2) h

/-- `Mat<T>::rowSwap` through a reference. -/
def rowSwapH {α : Type} (h : Heap α) (m : MatRef) (r1 r2 : Nat) : Except Err (Heap α) := do
  if (r1 : Int) > (m.rows : Int) then .error .outOfBounds
  else do
    let snap ← (List.range m.cols).mapM (fun i => readH h m r1 i)
    let h2 ← (List.range m.cols).foldlM (fun acc i => do
      let v ← readH acc m r2 i
      writeH acc m r1 i v) h
    setRowLH h2 m r2 snap

/-- `Mat<T>::rowMutliply` through a reference. -/
def rowMutliplyH {α : Type} [Mul α] (h : Heap α) (m : MatRef) (r1 : Nat) (t1 : α) :
    Except Err (Heap α) :=
  (List.range m.cols).foldlM (fun acc i => do
    let v ← readH acc m r1 i
    writeH acc m r1 i (t1 * v)) h

/-- `Mat<T>::rowAdd` through a reference. -/
def rowAddH {α : Type} [Mul α] [Add α] (h : Heap α) (m : MatRef) (r1 r2 : Nat)
    (multiply : α) : Except Err (Heap α) :=
  (List.range m.cols).foldlM (fun acc i => do
    let a ← readH acc m r1 i
    let b ← readH acc m r2 i
    writeH acc m r1 i (a + multiply * b)) h

/-- `Mat<T> _m1Clone = this`: `this` is a pointer, so overload resolution
selects the deep-copying `Mat(Mat<T1>*)` template constructor, which
allocates a fresh buffer and copies element-wise via `at`/`set`.  The
fresh `malloc`ed memory is modelled as zero-filled; the constructor loop
overwrites every cell of a well-formed source. -/
def cloneH {α : Type} [Field α] (h : Heap α) (src : MatRef) :
    Except Err (Heap α × MatRef) := do
  let dst : MatRef := ⟨src.rows, src.cols, h.length⟩
  let h0 := h ++ [List.replicate (src.rows * src.cols) 0]
  let hf ← (List.range src.rows).foldlM (fun acc i =>
    (List.range src.cols).foldlM (fun acc2 j => do
      let v ← readH acc2 src i j
      writeH acc2 dst i j v) acc) h0
  pure (hf, dst)

/-- The pivot-search loop of `rref(_m2)` through a reference to
`_m1Clone`. -/
def pivotSearchH {α : Type} [Zero α] [DecidableEq α] :
    Nat → Heap α → MatRef → Nat → Nat → Nat → Except Err (Option (Nat × Nat))
  | 0, _, _, _, _, _ => .error .outOfFuel
  | fuel + 1, h, m, r, i, lead => do
    let v ← readH h m i lead
    if v = 0 then
      if m.rows = i + 1 then
        if m.cols = lead + 1 then .ok none
        else pivotSearchH fuel h m r r (lead + 1)
      else pivotSearchH fuel h m r (i + 1) lead
    else .ok (some (i, lead))

/-- The main loop of `rref(Mat<T> _m2)` in the heap model, operating on
the references `_m1Clone` and `_m2Clone`; the result is the final heap
and the returned `_m2Clone` reference. -/
def rref2LoopH {α : Type} [Field α] [DecidableEq α] :
    Nat → Heap α → MatRef → MatRef → Nat → Nat → Except Err (Heap α × MatRef)
  | 0, _, _, _, _, _ => .error .outOfFuel
  | fuel + 1, h, m1, m2, r, lead =>
    if r < m1.rows then
      if m1.cols < lead then .ok (h, m2)
      else do
        match ← pivotSearchH (fuel + 1) h m1 r r lead with
        | none => .ok (h, m2)
        | some (i, lead2) => do
          let h ←
            if i ≠ r then do
              let h ← rowSwapH h m1 i r
              rowSwapH h m2 i r
            else pure h
          let pv ← readH h m1 r lead2
          let h ←
            if pv ≠ 0 then do
              let a ← readH h m1 r lead2
              let h ← rowMutliplyH h m2 r (1 / a)
              let b ← readH h m1 r lead2
              let h ← rowMutliplyH h m1 r (1 / b)
              let c ← readH h m1 r lead2
              rowMutliplyH h m2 r (1 / c)
            else pure h
          let h ← (List.range m1.rows).foldlM
            (fun acc i =>
              if i ≠ r then do
                let c1 ← readH acc m1 i lead2
                let acc ← rowAddH acc m2 i r (-c1)
                let c2 ← readH acc m1 i lead2
                rowAddH acc m1 i r (-c2)
              else pure acc) h
          rref2LoopH fuel h m1 m2 (r + 1) (lead2 + 1)
    else .ok (h, m2)

/-- The observable effect of the call `m1.rref(m2)`: the parameter `_m2`
and the local `_m2Clone` are copies of the caller's `m2` through the
implicitly-generated copy constructor (`Mat<T>` declares no copy
constructor and a template constructor never is one), so both carry the
caller's buffer pointer; `_m1Clone = this` deep-copies through
`Mat(Mat<T1>*)`.  The final heap shows what every involved buffer —
including the caller's two originals — holds after the call. -/
def rrefAugCall {α : Type} [Field α] [DecidableEq α] (fuel : Nat) (h : Heap α)
    (m1 m2 : MatRef) : Except Err (Heap α × MatRef) := do
  let (h, m1Clone) ← cloneH h m1
  let m2Clone := m2
  rref2LoopH fuel h m1Clone m2Clone 0 0

/-!
Helper lemmas about element access on well-formed matrices, used by the
equality-operator proof.
-/

/-- On a well-formed matrix, an access with both indices strictly in range
succeeds. -/
theorem Mat.atE_wf_ok {α : Type} (m : Mat α) (hw : m.wf) {i j : Nat}
    (hi : i < m.rows) (hj : j < m.cols) :
    ∃ v, m.atE (i : Int) (j : Int) = .ok v := by
  have hbad : ¬ m.addrBad (i : Int) (j : Int) := by
    unfold Mat.addrBad
    push_neg
    refine ⟨?_, ?_, ?_, ?_⟩ <;> omega
  have hcast : ((j : Int) + (i : Int) * (m.cols : Int)) = ((j + i * m.cols : Nat) : Int) := by
    push_cast
    ring
  have hlt : j + i * m.cols < m.buf.length := by
    rw [hw]
    calc j + i * m.cols < m.cols + i * m.cols := by omega
      _ = (i + 1) * m.cols := by ring
      _ ≤ m.rows * m.cols := Nat.mul_le_mul_right m.cols (by omega)
  refine ⟨m.buf.get ⟨j + i * m.cols, hlt⟩, ?_⟩
  unfold Mat.atE
  rw [if_neg hbad, hcast, Int.toNat_natCast, List.get?_eq_get hlt]

/-- The inner loop of `operator ==` over a list of in-range column
indices: it never throws, and it reports `true` exactly when the two
matrices agree at row `i` on every listed column. -/
theorem matEqCols_spec {α : Type} [DecidableEq α] (m1 m2 : Mat α)
    (hw1 : m1.wf) (hw2 : m2.wf) (hr : m1.rows = m2.rows) (hc : m1.cols = m2.cols)
    (i : Nat) (hi : i < m1.rows) :
    ∀ js : List Nat, (∀ j ∈ js, j < m1.cols) →
      (∃ b, matEqCols m1 m2 i js = .ok b) ∧
      (matEqCols m1 m2 i js = .ok true ↔
        ∀ j ∈ js, m1.atE (i : Int) (j : Int) = m2.atE (i : Int) (j : Int)) := by
  intro js
  induction js with
  | nil => intro _; exact ⟨⟨true, rfl⟩, by simp [matEqCols]⟩
  | cons j js ih =>
    intro hjs
    have hj : j < m1.cols := hjs j (List.mem_cons_self j js)
    obtain ⟨a, ha⟩ := m1.atE_wf_ok hw1 hi hj
    obtain ⟨b, hb⟩ := m2.atE_wf_ok hw2 (hr ▸ hi) (hc ▸ hj)
    obtain ⟨⟨btail, hbtail⟩, htail⟩ := ih (fun x hx => hjs x (List.mem_cons_of_mem j hx))
    by_cases hab : a = b
    · subst hab
      constructor
      · exact ⟨btail, by simp [matEqCols, ha, hb, hbtail]⟩
      · rw [show matEqCols m1 m2 i (j :: js) = matEqCols m1 m2 i js by
          simp [matEqCols, ha, hb]]
        rw [htail]
        constructor
        · intro h x hx
          rcases List.mem_cons.mp hx with h1 | h1
          · subst h1; rw [ha, hb]
          · exact h x h1
        · intro h x hx
          exact h x (List.mem_cons_of_mem j hx)
    · constructor
      · exact ⟨false, by simp [matEqCols, ha, hb, hab]⟩
      · rw [show matEqCols m1 m2 i (j :: js) = .ok false by
          simp [matEqCols, ha, hb, hab]]
        constructor
        · intro h; cases h
        · intro h
          have := h j (List.mem_cons_self j js)
          rw [ha, hb] at this
          exact absurd (Except.ok.inj this) hab

/-- The outer loop of `operator ==` over a list of in-range row indices. -/
theorem matEqRows_spec {α : Type} [DecidableEq α] (m1 m2 : Mat α)
    (hw1 : m1.wf) (hw2 : m2.wf) (hr : m1.rows = m2.rows) (hc : m1.cols = m2.cols) :
    ∀ is : List Nat, (∀ i ∈ is, i < m1.rows) →
      (matEqRows m1 m2 is = .ok true ↔
        ∀ i ∈ is, ∀ j < m1.cols, m1.atE (i : Int) (j : Int) = m2.atE (i : Int) (j : Int)) := by
  intro is
  induction is with
  | nil => intro _; simp [matEqRows]
  | cons i is ih =>
    intro his
    have hi : i < m1.rows := his i (List.mem_cons_self i is)
    have hcols := matEqCols_spec m1 m2 hw1 hw2 hr hc i hi (List.range m1.cols)
      (fun j hj => List.mem_range.mp hj)
    obtain ⟨⟨b, hb⟩, hiff⟩ := hcols
    have htail := ih (fun x hx => his x (List.mem_cons_of_mem i hx))
    cases b with
    | true =>
      rw [show matEqRows m1 m2 (i :: is) = matEqRows m1 m2 is by
        simp [matEqRows, hb]]
      rw [htail]
      have hrow := hiff.mp hb
      constructor
      · intro h x hx
        rcases List.mem_cons.mp hx with h1 | h1
        · subst h1
          intro j hj
          exact hrow j (List.mem_range.mpr hj)
        · exact h x h1
      · intro h x hx
        exact h x (List.mem_cons_of_mem i hx)
    | false =>
      rw [show matEqRows m1 m2 (i :: is) = .ok false by simp [matEqRows, hb]]
      constructor
      · intro h; cases h
      · intro h
        have : matEqCols m1 m2 i (List.range m1.cols) = .ok true :=
          hiff.mpr (fun j hj => h i (List.mem_cons_self i is) j (List.mem_range.mp hj))
        rw [hb] at this
        cases this

/-!
The claims.
-/

/-- Claim C1: for `M = [[2,1],[1,1]]` over the exact scalar `ℚ`, `det(M)`
returns `1`, `rref(M)` returns the 2×2 identity, and the augmented
`rref(M, eye(2))` — the computation `inv(M)` performs — returns
`[[1,-1],[-1,2]]`. -/
theorem claim_C1 :
    (MatS.det 30 (⟨⟨2, 2, [2, 1, 1, 1]⟩, 0, 0⟩ : MatS ℚ)).map Prod.fst = .ok 1 ∧
    rrefKernel 30 (⟨2, 2, [2, 1, 1, 1]⟩ : Mat ℚ) = .ok ⟨2, 2, [1, 0, 0, 1]⟩ ∧
    rref2Kernel 30 (⟨2, 2, [2, 1, 1, 1]⟩ : Mat ℚ) ⟨2, 2, [1, 0, 0, 1]⟩ =
      .ok ⟨2, 2, [1, -1, -1, 2]⟩ := by
  refine ⟨by decide, by decide, by decide⟩

/-- Claim C2 (code behaviour at the failing input): on the permutation
matrix `[[0,0,1],[0,1,0],[1,0,0]]` — one genuine row swap with
`i - r = 2` — `det` multiplies its running multiplier by
`(((i-r) % 2) == 0) ? 1 : -1 = 1` and returns `1`, while the rule stated
by the claim (every swap with `i ≠ r` contributes `-1`) yields `-1`, the
true determinant of this transposition matrix. -/
theorem claim_C2_code_eval :
    detKernel 30 (⟨3, 3, [0, 0, 1, 0, 1, 0, 1, 0, 0]⟩ : Mat ℚ) = .ok (1, true) ∧
    detClaimKernel 30 (⟨3, 3, [0, 0, 1, 0, 1, 0, 1, 0, 0]⟩ : Mat ℚ) = .ok (-1, true) := by
  refine ⟨by decide, by decide⟩

/-- Claim C3 (code behaviour at the failing input): `rref` of the 3×2
matrix `[[1,0],[0,1],[0,0]]` reaches row `r = 2` with `lead = 2`; the
termination test `cols() < lead` (`2 < 2`) does not fire, and the loop
condition then evaluates `at(2, 2)`, whose flat address `2 + 2*2 = 6` is
one past the 6-element buffer — an out-of-bounds read, not the claimed
clean termination. -/
theorem claim_C3_code_eval :
    rrefKernel 30 (⟨3, 2, [1, 0, 0, 1, 0, 0]⟩ : Mat ℚ) = .error .undefinedRead := by
  decide

/-- Claim C4 (code behaviour at the failing inputs): on a 2×2 matrix,
`at(0, 2)` passes the `col > _n_cols` test (`2 > 2` is false) and returns
the element stored at flat address `2` — the entry `(1,0)` — with no
exception, and `at(2, 0)` likewise passes the check and dereferences flat
address `4`, one past the buffer.  Indices beyond `rows`/`cols` by more
than one, or negative, do throw `OutOfBoundsError` as the claim states. -/
theorem claim_C4_code_eval :
    (Mat.atE (⟨2, 2, [1, 2, 3, 4]⟩ : Mat ℚ) 0 2 = .ok 3) ∧
    (Mat.atE (⟨2, 2, [1, 2, 3, 4]⟩ : Mat ℚ) 2 0 = .error .undefinedRead) ∧
    (Mat.atE (⟨2, 2, [1, 2, 3, 4]⟩ : Mat ℚ) (-1) 0 = .error .outOfBounds) ∧
    (Mat.atE (⟨2, 2, [1, 2, 3, 4]⟩ : Mat ℚ) 0 3 = .error .outOfBounds) := by
  refine ⟨by decide, by decide, by decide, by decide⟩

/-- Claim C5 (code behaviour at the failing input): `range(0,0,0,2)` on a
3×3 parent builds the expected 1×3 view (and `range` with `r2 < r1` does
throw `BadDimensionsError`), but `view.at(1, 1)` passes the view's own
check (`1 > _n_rows = 1` is false) and reads the parent element `(1,1)`
= `5`, outside the declared single-row sub-region, with no exception. -/
theorem claim_C5_code_eval :
    (Mat.range (⟨3, 3, [1, 2, 3, 4, 5, 6, 7, 8, 9]⟩ : Mat ℚ) 0 0 0 2 =
      .ok ⟨⟨3, 3, [1, 2, 3, 4, 5, 6, 7, 8, 9]⟩, 0, 0, 0, 2, 1, 3⟩) ∧
    (SubMat.atE ⟨⟨3, 3, [1, 2, 3, 4, 5, 6, 7, 8, 9]⟩, 0, 0, 0, 2, 1, 3⟩ 1 1 =
      .ok 5) ∧
    (Mat.range (⟨3, 3, [1, 2, 3, 4, 5, 6, 7, 8, 9]⟩ : Mat ℚ) 1 0 0 2 =
      .error .badDimensions) := by
  refine ⟨by decide, by decide, by decide⟩

/-- Claim C6: the transpose view swaps the dimensions and forwards
`at(r,c)` to `parent.at(c,r)` — for every parent and every index pair —
and on `M = [[1,2,3],[4,5,6]]` the view reports `rows = 3`, `cols = 2`
and `at(2,1) = 6`. -/
theorem claim_C6 :
    (∀ (α : Type) (m : Mat α) (r c : Int),
      (Mat.t m).rows = m.cols ∧ (Mat.t m).cols = m.rows ∧
      (Mat.t m).atE r c = m.atE c r) ∧
    (Mat.t (⟨2, 3, [1, 2, 3, 4, 5, 6]⟩ : Mat ℚ)).rows = 3 ∧
    (Mat.t (⟨2, 3, [1, 2, 3, 4, 5, 6]⟩ : Mat ℚ)).cols = 2 ∧
    (Mat.t (⟨2, 3, [1, 2, 3, 4, 5, 6]⟩ : Mat ℚ)).atE 2 1 = .ok 6 := by
  exact ⟨fun α m r c => ⟨rfl, rfl, rfl⟩, rfl, rfl, by decide⟩

/-- Claim C7 (code behaviour at the failing input): calling
`m1.rref(m2)` with `m1 = [[2,1],[1,1]]` (buffer 0) and `m2 = eye(2)`
(buffer 1) deep-clones only `m1` (into buffer 2); `_m2Clone` carries the
caller's buffer 1, so after the call the caller's `m2` holds
`[[1,-1],[-1,2]]` — its elements were mutated, contradicting the claim
that the augmented operand is left unchanged (only `m1`'s elements
survive intact). -/
theorem claim_C7_code_eval :
    rrefAugCall 30 ([[2, 1, 1, 1], [1, 0, 0, 1]] : Heap ℚ) ⟨2, 2, 0⟩ ⟨2, 2, 1⟩ =
      .ok ([[2, 1, 1, 1], [1, -1, -1, 2], [1, 0, 0, 1]], ⟨2, 2, 1⟩) ∧
    ([[2, 1, 1, 1], [1, -1, -1, 2], [1, 0, 0, 1]] : Heap ℚ).get? 1 ≠
      ([[2, 1, 1, 1], [1, 0, 0, 1]] : Heap ℚ).get? 1 := by
  refine ⟨by decide, by decide⟩

/-- Claim C8, counterexample to the statement as given: `det()` on the
1×1 zero matrix (cache empty) succeeds, returning `0`, through the
in-loop `return 0` exit — and leaves the determinant bit of the sticky
mask clear instead of marking the quantity Valid and storing it. -/
theorem claim_C8_counterexample :
    MatS.det 30 (⟨⟨1, 1, [0]⟩, 0, 37⟩ : MatS ℚ) =
      .ok (0, ⟨⟨1, 1, [0]⟩, 0, 37⟩) ∧
    (⟨⟨1, 1, [0]⟩, 0, 37⟩ : MatS ℚ).stickyComputeMask &&&
      ORCA_STICKY_COMPUTE_DET_MASK = 0 := by
  refine ⟨by decide, by decide⟩

/-- Claim C9, counterexample to the statement as given: the
one-dimensional vector allocator rejects a negative length with
`EmptyElementError` (not `BadDimensionsError`), and accepts length `0`
outright, yielding a vector with `_n_cols = 0`. -/
theorem claim_C9_counterexample :
    Vec.allocate (-1) = .error .emptyElement ∧
    Vec.allocate 0 = .ok (0, 1, 0) := by
  refine ⟨by decide, by decide⟩

/-- Claim C8, amended: every successful `set` clears the whole sticky
mask; a `det()` call while the determinant is Valid returns the stored
value unchanged-state; a `det()` whose elimination loop runs to completion
marks the determinant Valid and stores it, while a `det()` taking an
in-loop `return 0` exit returns `0` leaving the sticky state untouched;
consequently a `det()` after any successful `set` computes from the
mutated matrix rather than returning a stale cached value. -/
theorem claim_C8_amended :
    (∀ (s : MatS ℚ) (row col : Int) (v : ℚ) (s2 : MatS ℚ),
        MatS.set s row col v = .ok s2 → s2.stickyComputeMask = 0) ∧
    (∀ (s : MatS ℚ) (fuel : Nat),
        s.stickyComputeMask &&& ORCA_STICKY_COMPUTE_DET_MASK ≠ 0 →
        MatS.det fuel s = .ok (s.detCache, s)) ∧
    (∀ (s : MatS ℚ) (fuel : Nat) (v : ℚ),
        s.stickyComputeMask &&& ORCA_STICKY_COMPUTE_DET_MASK = 0 →
        s.mat.rows = s.mat.cols →
        detKernel fuel s.mat = .ok (v, true) →
        MatS.det fuel s = .ok (v, { s with
          stickyComputeMask := s.stickyComputeMask ||| ORCA_STICKY_COMPUTE_DET_MASK,
          detCache := v })) ∧
    (∀ (s : MatS ℚ) (fuel : Nat) (v : ℚ),
        s.stickyComputeMask &&& ORCA_STICKY_COMPUTE_DET_MASK = 0 →
        s.mat.rows = s.mat.cols →
        detKernel fuel s.mat = .ok (v, false) →
        MatS.det fuel s = .ok (v, s)) ∧
    (∀ (s : MatS ℚ) (row col : Int) (v : ℚ) (s2 : MatS ℚ) (fuel : Nat)
        (w : ℚ) (c : Bool),
        MatS.set s row col v = .ok s2 →
        s2.mat.rows = s2.mat.cols →
        detKernel fuel s2.mat = .ok (w, c) →
        (MatS.det fuel s2).map Prod.fst = .ok w) := by
  have hset : ∀ (s : MatS ℚ) (row col : Int) (v : ℚ) (s2 : MatS ℚ),
      MatS.set s row col v = .ok s2 → s2.stickyComputeMask = 0 := by
    intro s row col v s2 h
    unfold MatS.set at h
    cases hm : s.mat.setE row col v with
    | error e => rw [hm] at h; cases h
    | ok m =>
      rw [hm] at h
      cases h
      rfl
  refine ⟨hset, ?_, ?_, ?_, ?_⟩
  · intro s fuel h
    unfold MatS.det
    rw [if_pos h]
  · intro s fuel v hmask hsq hk
    unfold MatS.det
    rw [if_neg (by simp [hmask]), if_neg (by simp [hsq]), hk]
    simp
  · intro s fuel v hmask hsq hk
    unfold MatS.det
    rw [if_neg (by simp [hmask]), if_neg (by simp [hsq]), hk]
    simp
  · intro s row col v s2 fuel w c h1 h2 h3
    have hm0 := hset s row col v s2 h1
    unfold MatS.det
    rw [if_neg (by simp [hm0, ORCA_STICKY_COMPUTE_DET_MASK]), if_neg (by simp [h2]), h3]
    cases c <;> rfl

/-- Witness for claim C8 (amended): a Valid-cache `det()` on a 1×1 state
returns the stored `9` without recomputation; after the `set` that
overwrote the single entry of a cached matrix with `3`, `det()` returns
the freshly computed `3` of the mutated matrix. -/
theorem claim_C8_witness :
    MatS.det 30 (⟨⟨1, 1, [5]⟩, 2, 9⟩ : MatS ℚ) = .ok (9, ⟨⟨1, 1, [5]⟩, 2, 9⟩) ∧
    (MatS.det 30 (⟨⟨1, 1, [3]⟩, 0, 9⟩ : MatS ℚ)).map Prod.fst = .ok 3 := by
  constructor
  · exact claim_C8_amended.2.1 ⟨⟨1, 1, [5]⟩, 2, 9⟩ 30 (by decide)
  · exact claim_C8_amended.2.2.2.2 ⟨⟨1, 1, [5]⟩, 2, 9⟩ 0 0 3 ⟨⟨1, 1, [3]⟩, 0, 9⟩
      30 3 true (by decide) (by decide) (by decide)

/-- Claim C9, amended: the matrix allocator rejects a negative dimension
with `BadDimensionsError` and a zero dimension with `EmptyElementError`,
so every successfully allocated matrix has `rows > 0 ∧ cols > 0`; the
one-dimensional vector allocators (`Vec`, `ColVec`) reject only negative
lengths, and with `EmptyElementError`, accepting length `0` (which yields
a vector whose non-unit dimension is `0`). -/
theorem claim_C9_amended :
    (∀ rows cols : Int,
      (Mat.allocate rows cols = .error .badDimensions ↔ rows < 0 ∨ cols < 0) ∧
      (Mat.allocate rows cols = .error .emptyElement ↔
        (¬(rows < 0 ∨ cols < 0) ∧ (rows = 0 ∨ cols = 0))) ∧
      (∀ p, Mat.allocate rows cols = .ok p → 0 < p.1 ∧ 0 < p.2)) ∧
    (∀ n : Int,
      (Vec.allocate n = .error .emptyElement ↔ n < 0) ∧
      (0 ≤ n → Vec.allocate n = .ok (n.toNat, 1, n.toNat))) ∧
    (∀ n : Int,
      (ColVec.allocate n = .error .emptyElement ↔ n < 0) ∧
      (0 ≤ n → ColVec.allocate n = .ok (n.toNat, n.toNat, 1))) := by
  refine ⟨fun rows cols => ⟨?_, ?_, ?_⟩, fun n => ⟨?_, ?_⟩, fun n => ⟨?_, ?_⟩⟩
  · unfold Mat.allocate
    split_ifs with h1 h2 <;> simp_all
  · unfold Mat.allocate
    split_ifs with h1 h2 <;> simp_all
  · intro p hp
    unfold Mat.allocate at hp
    split_ifs at hp with h1 h2
    cases hp
    constructor <;> simp <;> omega
  · unfold Vec.allocate
    split_ifs with h1 <;> simp_all
  · intro h
    unfold Vec.allocate
    rw [if_neg (by omega)]
  · unfold ColVec.allocate
    split_ifs with h1 <;> simp_all
  · intro h
    unfold ColVec.allocate
    rw [if_neg (by omega)]

/-- Witness for claim C9 (amended): `_allocate(3, 4)` succeeds with
positive recorded dimensions, and `Vec::_allocate(5)` records
`(5, 1, 5)`. -/
theorem claim_C9_witness :
    (0 < (3, 4).1 ∧ 0 < (3, 4).2) ∧ Vec.allocate 5 = .ok (5, 1, 5) := by
  constructor
  · exact (claim_C9_amended.1 3 4).2.2 (3, 4) (by decide)
  · exact (claim_C9_amended.2.1 5).2 (by decide)

/-- Claim C10: for well-formed matrices, `operator ==` returns `ok true`
exactly when the dimensions agree and every in-range element pair agrees,
and a shape mismatch yields `ok false` — a result, not an exception. -/
theorem claim_C10 {α : Type} [DecidableEq α] (m1 m2 : Mat α)
    (hw1 : m1.wf) (hw2 : m2.wf) :
    (matEq m1 m2 = .ok true ↔
      (m1.rows = m2.rows ∧ m1.cols = m2.cols ∧
        ∀ i < m1.rows, ∀ j < m1.cols,
          m1.atE (i : Int) (j : Int) = m2.atE (i : Int) (j : Int))) ∧
    ((m1.rows ≠ m2.rows ∨ m1.cols ≠ m2.cols) → matEq m1 m2 = .ok false) := by
  constructor
  · by_cases hshape : m1.rows = m2.rows ∧ m1.cols = m2.cols
    · obtain ⟨hr, hc⟩ := hshape
      unfold matEq
      rw [if_neg (by simp [hr, hc])]
      rw [matEqRows_spec m1 m2 hw1 hw2 hr hc (List.range m1.rows)
        (fun i hi => List.mem_range.mp hi)]
      constructor
      · intro h
        exact ⟨hr, hc, fun i hi j hj => h i (List.mem_range.mpr hi) j hj⟩
      · intro h i hi j hj
        exact h.2.2 i (List.mem_range.mp hi) j hj
    · unfold matEq
      rw [if_pos (by tauto)]
      constructor
      · intro h; cases h
      · intro h
        exact absurd ⟨h.1, h.2.1⟩ hshape
  · intro h
    unfold matEq
    rw [if_pos (by tauto)]

/-- Witness for claim C10: two equal 2×2 matrices compare `true`, and a
2×2 against a 1×4 with the same buffer compares `false`. -/
theorem claim_C10_witness :
    matEq (⟨2, 2, [1, 2, 3, 4]⟩ : Mat ℚ) ⟨2, 2, [1, 2, 3, 4]⟩ = .ok true ∧
    matEq (⟨2, 2, [1, 2, 3, 4]⟩ : Mat ℚ) ⟨1, 4, [1, 2, 3, 4]⟩ = .ok false := by
  constructor
  · exact (claim_C10 ⟨2, 2, [1, 2, 3, 4]⟩ ⟨2, 2, [1, 2, 3, 4]⟩
      (by rfl) (by rfl)).1.mpr ⟨rfl, rfl, by decide⟩
  · exact (claim_C10 ⟨2, 2, [1, 2, 3, 4]⟩ ⟨1, 4, [1, 2, 3, 4]⟩
      (by rfl) (by rfl)).2 (by decide)

end ORCA
